import Mathlib

/-!
Verification of the split-value voting orchestrator (`sv_election.py`).

The definitions below shallowly embed `sv_election.py`. The companion
modules (`sv_sbb`, `sv_voter`, `sv_race`, `sv_server`, `sv_tally`,
`sv_prover`, `sv`) are not part of the available source; wherever one of
them is needed the corresponding definition is modelled from the
specification and its doc comment says so.
-/

set_option maxRecDepth 4096

namespace SV

instance {ε α : Type} [DecidableEq ε] [DecidableEq α] : DecidableEq (Except ε α) :=
  fun x y =>
    match x, y with
    | .ok a, .ok b =>
      if h : a = b then .isTrue (by rw [h])
      else .isFalse (by intro hc; injection hc; contradiction)
    | .error a, .error b =>
      if h : a = b then .isTrue (by rw [h])
      else .isFalse (by intro hc; injection hc; contradiction)
    | .ok _, .error _ => .isFalse (fun hc => Except.noConfusion hc)
    | .error _, .ok _ => .isFalse (fun hc => Except.noConfusion hc)

/-- A Python numeric value, as far as the orchestrator's configuration
checks are concerned: either an `int` or a (non-integral or integral)
`float`, the latter modelled exactly as a rational number. -/
inductive PyNum where
  | pint (i : Int)
  | pfloat (q : Rat)
deriving DecidableEq

/-- `isinstance(v, int) and v > 0` (the check applied to `n_voters`
and similar parameters in `Election.__init__`). -/
def isPosInt : PyNum → Bool
  | .pint i => decide (0 < i)
  | .pfloat _ => false

/-- `isinstance(v, int) and v >= 0` (the check applied to `n_fail` and
`n_leak` in `Election.__init__`). -/
def isNonnegInt : PyNum → Bool
  | .pint i => decide (0 ≤ i)
  | .pfloat _ => false

/-- `isinstance(v, int) and 0 < v <= 26 and v % 2 == 0` (the check
applied to `n_reps` in `Election.__init__`). -/
def isValidReps : PyNum → Bool
  | .pint i => decide (0 < i ∧ i ≤ 26 ∧ i % 2 = 0)
  | .pfloat _ => false

/-- `v > 0` on a Python number: the only check `Election.__init__`
applies to `ballot_id_len` (line 93: `assert ballot_id_len > 0`, with
no `isinstance` test). -/
def pyPos : PyNum → Bool
  | .pint i => decide (0 < i)
  | .pfloat q => decide (0 < q)

/-- The natural number carried by a Python int (0 for other values);
used after the configuration checks have established the value is a
positive int. -/
def pyNatOf : PyNum → Nat
  | .pint i => i.toNat
  | .pfloat _ => 0

/-- Error kinds of the election core.  The configuration `assert`
statements of `Election.__init__` and `setup_races` are modelled as
`ConfigInvalid` with a reason string, following the specification's
naming of that failure; `EncodingTooLarge` and `SBBClosed` are the
error kinds of the (spec-modelled) voter and bulletin board. -/
inductive SvError where
  | ConfigInvalid (reason : String)
  | EncodingTooLarge
  | SBBClosed
  | TallyInconsistent
deriving DecidableEq

/-- The election parameters dict handed to `Election.__init__`.
Mandatory keys are fields; the optional `ballot_id_len` and
`json_indent` keys are `Option`s (`none` = key absent).  Parameters
that the code guards with `isinstance(..., int)` are carried as
`PyNum` so that the dynamic type checks are part of the model. -/
structure ElectionParameters where
  election_id : String
  ballot_style : List (String × List String)
  n_voters : PyNum
  n_reps : PyNum
  n_fail : PyNum
  n_leak : PyNum
  ballot_id_len : Option PyNum
  json_indent : Option Int
deriving DecidableEq

/-- `election_parameters.get("ballot_id_len", 32)` (line 59). -/
def ballotIdLenOf (p : ElectionParameters) : PyNum :=
  p.ballot_id_len.getD (.pint 32)

/-- The parameter checks of `Election.__init__` (lines 64-94), in
source order.  Each failing `assert` is modelled as a `ConfigInvalid`
error carrying a reason. -/
def checkParams (p : ElectionParameters) : Except SvError Unit :=
  if p.election_id.length = 0 then
    .error (.ConfigInvalid "election_id must be a non-empty string")
  else if p.ballot_style.length = 0 then
    .error (.ConfigInvalid "ballot_style must be a non-empty list")
  else if ¬ isPosInt p.n_voters then
    .error (.ConfigInvalid "n_voters must be a positive integer")
  else if ¬ isValidReps p.n_reps then
    .error (.ConfigInvalid "n_reps must be a positive even integer at most 26")
  else if ¬ isNonnegInt p.n_fail then
    .error (.ConfigInvalid "n_fail must be a non-negative integer")
  else if ¬ isNonnegInt p.n_leak then
    .error (.ConfigInvalid "n_leak must be a non-negative integer")
  else if ¬ pyPos (ballotIdLenOf p) then
    .error (.ConfigInvalid "ballot_id_len must be positive")
  else
    .ok ()

/-- The conjunction of all parameter checks of `Election.__init__`. -/
def validParams (p : ElectionParameters) : Prop :=
  p.election_id.length > 0 ∧ p.ballot_style.length > 0 ∧
  isPosInt p.n_voters = true ∧ isValidReps p.n_reps = true ∧
  isNonnegInt p.n_fail = true ∧ isNonnegInt p.n_leak = true ∧
  pyPos (ballotIdLenOf p) = true

instance (p : ElectionParameters) : Decidable (validParams p) := by
  unfold validParams; infer_instance

/-- `"ABCDEFGHIJKLMNOPQRSTUVWXYZ"[:n_reps]` (line 86): the copies
(passes) of the cut-and-choose step, one upper-case letter each. -/
def kListStr (n : Nat) : List Char :=
  "ABCDEFGHIJKLMNOPQRSTUVWXYZ".toList.take n

/-- Modelled from the spec: `sv.p_list` (module `sv` is not in the
source).  The position list `["p0", "p1", ...]`, zero-padded so that
all entries have the same length and sort lexicographically. -/
def pList (n : Nat) : List String :=
  let w := (toString (n - 1)).length
  (List.range n).map (fun i =>
    let s := toString i
    "p" ++ String.mk (List.replicate (w - s.length) '0') ++ s)

/-- Modelled from the spec: the row labels `a, b, c, ...` (lowercase
ascii) of the server grid (`sv_server` is not in the source). -/
def rowLabels (n : Nat) : List String :=
  (List.range n).map (fun i => (Char.ofNat (97 + i)).toString)

/-- Modelled from the spec: the number of server rows, derived from
`n_fail` and `n_leak` "per the server module's policy"; the policy
itself is in the missing `sv_server`, so a stand-in total function is
used (enough rows to out-number the declared failures and leaks).  No
claim depends on the exact count. -/
def rowCount (nFail nLeak : Nat) : Nat :=
  nFail + nLeak + 1

/-- Trial-division primality test (used by the modelled race modulus
computation; the real one lives in the missing `sv_race`/`sv`). -/
def isPrime (n : Nat) : Bool :=
  decide (2 ≤ n) && (List.range n).all (fun d => decide (d < 2) || n % d != 0)

/-- First prime at or after `n`, with explicit fuel. -/
def nextPrimeFrom : Nat → Nat → Nat
  | 0, n => n
  | fuel + 1, n => if isPrime n then n else nextPrimeFrom fuel (n + 1)

/-- A string of one or more stars: the write-in placeholder of a
ballot style (its length is the maximum write-in length). -/
def isStarString (s : String) : Bool :=
  decide (s.length > 0) && s.toList.all (fun c => c == '*')

/-- The maximum write-in length allowed by a choice list: the length
of its longest star-placeholder entry (0 if none). -/
def maxStarLen (choices : List String) : Nat :=
  choices.foldl (fun a c => if isStarString c then max a c.length else a) 0

/-- Modelled from the spec: the encoded-choice upper bound of a race —
at least one encoding per listed choice, plus capacity for write-in
byte strings of the allowed length (`sv_race` is not in the source). -/
def encodedBound (choices : List String) : Nat :=
  max choices.length (256 ^ maxStarLen choices)

/-- Modelled from the spec: the race modulus — the smallest prime at
least the encoded-choice upper bound (`sv_race` is not in the source).
By Bertrand's postulate the fuel `2 * b + 2` always reaches a prime. -/
def raceModulus (choices : List String) : Nat :=
  nextPrimeFrom (2 * encodedBound choices + 2) (max 2 (encodedBound choices))

/-- A race of the election: identifier, choice list, and modulus. -/
structure Race where
  race_id : String
  choices : List String
  race_modulus : Nat
deriving DecidableEq

/-- `sv_race.Race(self, race_id, choices)` as far as its published
fields go (`sv_race` is not in the source; modelled from the spec). -/
def mkRace (race_id : String) (choices : List String) : Race :=
  ⟨race_id, choices, raceModulus choices⟩

/-- Index of a string in a list, if present. -/
def idxOf? : List String → String → Option Nat
  | [], _ => none
  | c :: cs, s => if c = s then some 0 else (idxOf? cs s).map (· + 1)

/-- Modelled from the spec: `encode(choice) → field_elem` of the
missing `sv_race`.  A listed choice is encoded by its index; any other
string is a write-in, accepted when a star placeholder exists and the
string fits, and encoded by byte interpretation; everything else
cannot be encoded within `[0, m)`. -/
def encodeChoice (race : Race) (choice : String) : Option Nat :=
  match idxOf? race.choices choice with
  | some i => some i
  | none =>
    if 0 < maxStarLen race.choices ∧ choice.length ≤ maxStarLen race.choices then
      let v := choice.toList.foldl (fun a c => a * 256 + c.toNat) 0
      if v < race.race_modulus then some v else none
    else none

/-- Modelled from the spec: the commitment `C(value, r) = H(value ‖ r)`
of the missing `sv` module.  `H` is replaced by an injective pairing
stand-in; no claim below depends on any property of `H`. -/
def commit (value r : Nat) : Nat :=
  (value + r) * (value + r + 1) / 2 + r

/-- A cast-vote record `{ballot_id, x, u, v, ru, rv, cu, cv}` (§3 of
the specification; filled in by `sv_voter` and consumed by
`distribute_cast_votes` and `post_cast_vote_commitments`). -/
structure CastVoteRecord where
  ballot_id : String
  x : Nat
  u : Nat
  v : Nat
  ru : Nat
  rv : Nat
  cu : Nat
  cv : Nat
deriving DecidableEq

/-- A value held in a server cell: either a string (ballot ids) or a
field/commitment number. -/
inductive Val where
  | s (str : String)
  | n (num : Nat)
deriving DecidableEq

/-- The eight field names of a cast-vote record, as used for the inner
dictionaries of a server cell. -/
inductive FieldName where
  | ballot_id
  | x
  | u
  | v
  | ru
  | rv
  | cu
  | cv
deriving DecidableEq

/-- Projection of a cast-vote record onto one of its eight fields. -/
def voteVal (vote : CastVoteRecord) : FieldName → Val
  | .ballot_id => .s vote.ballot_id
  | .x => .n vote.x
  | .u => .n vote.u
  | .v => .n vote.v
  | .ru => .n vote.ru
  | .rv => .n vote.rv
  | .cu => .n vote.cu
  | .cv => .n vote.cv

/-- The `{choices, race_modulus}` dictionary published per race under
`setup:races` (lines 199-200). -/
structure RaceInfo where
  choices : List String
  race_modulus : Nat
deriving DecidableEq

/-- The three public fields of a cast vote posted under
`casting:votes` (lines 283-288). -/
structure CastVoteCommitment where
  ballot_id : String
  cu : Nat
  cv : Nat
deriving DecidableEq

/-- A voter receipt, as posted under `casting:receipts`.  Its contents
are produced by the missing `sv_voter`; the orchestrator treats it as
opaque, so a simple key/value dictionary stands in. -/
abbrev Receipt : Type := List (String × String)

/-- The nested dictionary posted under `casting:votes`:
race id → position → row → public commitment fields. -/
abbrev CvcsDict : Type :=
  List (String × List (String × List (String × CastVoteCommitment)))

/-- Payload of an SBB entry.  The payloads posted by `sv_election.py`
itself are carried in full; the payloads of posts made by the missing
modules (`sv_server.mix`, `sv_tally.post_tally`, `sv_prover`) are
outside every claim and are represented by `pnone`. -/
inductive Payload where
  | pnone
  | pstart (about : List String) (election_id : String) (legend : List String)
  | praces (ballot_style_race_dict : List (String × RaceInfo))
  | pvoters (n_voters : Nat) (ballot_id_len : PyNum)
  | pcvcs (cast_vote_dict : CvcsDict)
  | preceipts (receipt_dict : List (String × Receipt))
  | pdone (election_id : String)
deriving DecidableEq

/-- One entry of the secure bulletin board: a label, a payload, and
whether the post carried a timestamp (wall-clock contents are not
modelled, only the `time_stamp` flag given to `post`). -/
structure SbbEntry where
  label : String
  payload : Payload
  time_stamp : Bool
deriving DecidableEq

/-- Modelled from the spec: the secure bulletin board of the missing
`sv_sbb` — an append-only, totally ordered log keyed by election id,
with a closed flag set by `close()`. -/
structure SBB where
  election_id : String
  entries : List SbbEntry
  closed : Bool
deriving DecidableEq

/-- Modelled from the spec: `sv_sbb.SBB(election_id)` — a fresh open
board with no entries. -/
def SBB.new (election_id : String) : SBB :=
  ⟨election_id, [], false⟩

/-- Modelled from the spec: `SBB.post(label, payload, time_stamp)` —
append one entry; posting after `close()` fails with `SBBClosed`. -/
def SBB.post (sbb : SBB) (label : String) (payload : Payload)
    (time_stamp : Bool) : Except SvError SBB :=
  if sbb.closed then .error .SBBClosed
  else .ok { sbb with entries := sbb.entries ++ [⟨label, payload, time_stamp⟩] }

/-- Modelled from the spec: `SBB.close()` — further posts fail. -/
def SBB.close (sbb : SBB) : SBB :=
  { sbb with closed := true }

/-- A simulated voter: identifier `voter:i` and position label. -/
structure VoterT where
  vid : String
  px : String
deriving DecidableEq

/-- The `about_text` posted under `setup:start` (lines 96-101). -/
def aboutText : List String :=
  ["Secure Bulletin Board for Split-Value Voting Method Demo.",
   "by Michael O. Rabin and Ronald L. Rivest",
   "For paper: see http://people.csail.mit.edu/rivest/pubs.html#RR14a",
   "For code: see https://github.com/ron-rivest/split-value-voting"]

/-- The `legend_text` posted under `setup:start` (lines 102-118). -/
def legendText : List String :=
  ["Indices between 0 and n_voters-1 indicated by p0, p1, ...",
   "Rows of server array indicated by a, b, c, d, ...",
   "Copies (n_reps = 2m passes) indicated by A, B, C, D, ...",
   "'********' in ballot style indicates a write-in option",
   "           (number of stars is max write-in length)",
   "Values represented are represented modulo race_modulus.",
   "'x' (or 'y') equals u+v (mod race_modulus),",
   "             and is a (Shamir-)share of the vote.",
   "'cu' and 'cv' are commitments to u and v, respectively.",
   "'ru' and 'rv' are randomization values for cu and cv.",
   "'icl' stands for 'input comparison list',",
   "'opl' for 'output production list';",
   "      these are the 'cut-and-choose' results",
   "      dividing up the lists into two sub-lists.",
   "'time' is time in ISO 8601 format."]

/-- The election state built by `Election.__init__`; the bulletin
board is threaded separately through the state-machine functions. -/
structure Election where
  election_id : String
  ballot_style : List (String × List String)
  n_voters : Nat
  p_list : List String
  n_reps : Nat
  k_list : List Char
  n_fail : Nat
  n_leak : Nat
  ballot_id_len : PyNum
  race_ids : List String
  races : List Race
  voters : List VoterT
  row_list : List String

/-- The `race_dict` built by `setup_races` (lines 195-200): one
`{choices, race_modulus}` record per race, in ballot-style order. -/
def raceDictOf (ballot_style : List (String × List String)) :
    List (String × RaceInfo) :=
  ballot_style.map (fun pr =>
    let race := mkRace pr.1 pr.2
    (pr.1, RaceInfo.mk race.choices race.race_modulus))

/-- `Election.setup_races` (lines 175-203): check that the race ids of
the ballot style are distinct (the `assert` of line 193, modelled as a
`ConfigInvalid` error), then build one race per pair in ballot-style
order and post the `{choices, race_modulus}` dictionary under
`setup:races` with the timestamp suppressed. -/
def setup_races (ballot_style : List (String × List String)) (sbb : SBB) :
    SBB × Except SvError (List Race) :=
  if (ballot_style.map Prod.fst).Nodup then
    let races := ballot_style.map (fun pr => mkRace pr.1 pr.2)
    match sbb.post "setup:races" (.praces (raceDictOf ballot_style)) false with
    | .error e => (sbb, .error e)
    | .ok sbb' => (sbb', .ok races)
  else
    (sbb, .error (.ConfigInvalid "race ids are not distinct"))

/-- `Election.setup_voters` (lines 205-232): re-check that `n_voters`
is a positive int (the `assert` of line 208), build the voters
`voter:0, voter:1, ...` with their position labels, and post
`setup:voters` with the timestamp suppressed.  The `if False:` block
of lines 223-232 is dead code and is not modelled. -/
def setup_voters (n_voters_py : PyNum) (p_list : List String)
    (ballot_id_len : PyNum) (sbb : SBB) : SBB × Except SvError (List VoterT) :=
  if isPosInt n_voters_py then
    let n := pyNatOf n_voters_py
    let voters := (List.range n).map (fun i =>
      VoterT.mk ("voter:" ++ toString i) (p_list.getD i ""))
    match sbb.post "setup:voters" (.pvoters n ballot_id_len) false with
    | .error e => (sbb, .error e)
    | .ok sbb' => (sbb', .ok voters)
  else
    (sbb, .error (.ConfigInvalid "n_voters must be a positive integer"))

/-- `Election.setup_keys` (lines 246-251): the body is `pass` — no
keys are set up in this simulation and nothing is posted. -/
def setup_keys (sbb : SBB) : SBB := sbb

/-- `Election.__init__` (lines 21-138): check the parameters, start
the bulletin board, post `setup:start`, run `setup_races` and
`setup_voters`, create the server, run `setup_keys`, and post
`setup:finished`.  On a failed check the error is returned together
with the board as it stood (no further post is made). -/
def election_init (p : ElectionParameters) : SBB × Except SvError Election :=
  match checkParams p with
  | .error e => (SBB.new p.election_id, .error e)
  | .ok () =>
    let sbb0 := SBB.new p.election_id
    match sbb0.post "setup:start" (.pstart aboutText p.election_id legendText) true with
    | .error e => (sbb0, .error e)
    | .ok sbb1 =>
      match setup_races p.ballot_style sbb1 with
      | (sbb2, .error e) => (sbb2, .error e)
      | (sbb2, .ok races) =>
        let n := pyNatOf p.n_voters
        let p_list := pList n
        match setup_voters p.n_voters p_list (ballotIdLenOf p) sbb2 with
        | (sbb3, .error e) => (sbb3, .error e)
        | (sbb3, .ok voters) =>
          let row_list := rowLabels (rowCount (pyNatOf p.n_fail) (pyNatOf p.n_leak))
          let sbb4 := setup_keys sbb3
          match sbb4.post "setup:finished" .pnone true with
          | .error e => (sbb4, .error e)
          | .ok sbb5 =>
            (sbb5, .ok
              { election_id := p.election_id
                ballot_style := p.ballot_style
                n_voters := n
                p_list := p_list
                n_reps := pyNatOf p.n_reps
                k_list := kListStr (pyNatOf p.n_reps)
                n_fail := pyNatOf p.n_fail
                n_leak := pyNatOf p.n_leak
                ballot_id_len := ballotIdLenOf p
                race_ids := p.ballot_style.map Prod.fst
                races := races
                voters := voters
                row_list := row_list })

/-- The per-(voter, race) randomness drawn by a voter: ballot id,
the uniform share `u`, and the two commitment randomizers. -/
structure VoterRand where
  bid : String
  u : Nat
  ru : Nat
  rv : Nat

/-- Modelled from the spec: `sv_voter.Voter.cast_vote` (`sv_voter` is
not in the source).  Encode the selected choice — failing with
`EncodingTooLarge` when it cannot be encoded within `[0, m)` — then
form the split-value shares `u + v ≡ choice (mod m)`, the sum `x`,
and the two commitments, with the randomness supplied as input. -/
def cast_vote (race : Race) (choice : String) (rnd : VoterRand) :
    Except SvError CastVoteRecord :=
  match encodeChoice race choice with
  | none => .error .EncodingTooLarge
  | some enc =>
    let m := race.race_modulus
    let u := rnd.u % m
    let v := (enc + m - u) % m
    let x := (u + v) % m
    .ok ⟨rnd.bid, x, u, v, rnd.ru, rnd.rv, commit u rnd.ru, commit v rnd.rv⟩

/-- The votes cast by one voter: one record per race, keyed by race id
(the same record is held by every server row, per §4.3.5 of the
specification). -/
structure VoterVotes where
  vid : String
  px : String
  votes : List (String × CastVoteRecord)

/-- The voting loop of `run_election` (lines 146-148): every voter
casts one vote in every race; the first encoding failure aborts. -/
def castAllVotes (e : Election) (choiceOf : String → String → String)
    (rnd : String → String → VoterRand) : Except SvError (List VoterVotes) :=
  e.voters.mapM (fun v => do
    let vs ← e.races.mapM (fun race => do
      let rec' ← cast_vote race (choiceOf v.vid race.race_id) (rnd v.vid race.race_id)
      pure (race.race_id, rec'))
    pure (VoterVotes.mk v.vid v.px vs))

/-- The contents of `cast_votes[race_id][px][i]` after the voting
loop, as a total function: every row `i` holds the identical record the
voter at position `px` cast in race `race_id` (§4.3.5); absent keys are
mapped to a dummy record, which no claim relies on. -/
def cvFun (votes : List VoterVotes) :
    String → String → String → CastVoteRecord :=
  fun r px _i =>
    match votes.find? (fun vv => vv.px == px) with
    | none => ⟨"", 0, 0, 0, 0, 0, 0, 0⟩
    | some vv =>
      match vv.votes.lookup r with
      | none => ⟨"", 0, 0, 0, 0, 0, 0, 0⟩
      | some rec' => rec'

/-- One cell of the server data structure `sdb[race_id][i][col]`: an
inner dictionary per field name mapping positions to values (the
`sdbp['field'][px]` shape of lines 264-271). -/
def Cell : Type := FieldName → String → Val

/-- The server data structure: race id → row → column → cell.  The
structure is built by the missing `sv_server`; only the cells written
by `distribute_cast_votes` matter to the claims, so the initial cell
contents are left at a fixed default. -/
def Sdb : Type := String → String → Nat → Cell

/-- The default contents of an untouched cell. -/
def emptyCell : Cell := fun _ _ => .n 0

/-- Write all eight fields of one cast-vote record at position `px` of
a cell (the eight assignments of lines 264-271). -/
def updCell (c : Cell) (px : String) (vote : CastVoteRecord) : Cell :=
  fun f q => if q = px then voteVal vote f else c f q

/-- One iteration of the inner loop of `distribute_cast_votes`: update
the column-0 cell of `(race_id, i)` at position `px`, leaving every
other cell untouched. -/
def writeShare (s : Sdb) (r px i : String) (vote : CastVoteRecord) : Sdb :=
  fun r' i' c =>
    if r' = r ∧ i' = i ∧ c = 0 then updCell (s r i 0) px vote else s r' i' c

/-- `Election.distribute_cast_votes` (lines 253-271): for every race
id, position, and server row, copy the cast-vote record into the
column-0 cell of the server grid. -/
def distribute_cast_votes (race_ids p_list row_list : List String)
    (cast_votes : String → String → String → CastVoteRecord)
    (sdb : Sdb) : Sdb :=
  race_ids.foldl (fun s r =>
    p_list.foldl (fun s px =>
      row_list.foldl (fun s i => writeShare s r px i (cast_votes r px i)) s) s) sdb

/-- `Election.post_cast_vote_commitments` (lines 273-291), up to the
posting itself: the nested dictionary that copies, for every race id,
position, and row, exactly the `ballot_id`, `cu` and `cv` fields of
the cast-vote record (Python dictionaries built in insertion order are
modelled as association lists extended at the back). -/
def post_cast_vote_commitments_payload (race_ids p_list row_list : List String)
    (cvs : String → String → String → CastVoteRecord) : CvcsDict :=
  race_ids.foldl (fun acc r =>
    acc ++ [(r, p_list.foldl (fun acc2 px =>
      acc2 ++ [(px, row_list.foldl (fun acc3 i =>
        acc3 ++ [(i, CastVoteCommitment.mk
          (cvs r px i).ballot_id (cvs r px i).cu (cvs r px i).cv)]) [])]) [])]) []

/-- Python dictionary assignment `d[k] = v` on an insertion-ordered
association list: overwrite in place if the key exists, otherwise
append. -/
def dinsert {α : Type} (d : List (String × α)) (k : String) (v : α) :
    List (String × α) :=
  if (d.lookup k).isSome then
    d.map (fun kv => if kv.1 = k then (k, v) else kv)
  else
    d ++ [(k, v)]

/-- `Election.post_voter_receipts` (lines 293-301), up to the posting
itself: one dictionary collecting every voter's receipts, built by
iterating the voters and, per voter, the ballot ids of its receipt
dictionary. -/
def post_voter_receipts_payload
    (voterReceiptDicts : List (List (String × Receipt))) :
    List (String × Receipt) :=
  voterReceiptDicts.foldl (fun d recs =>
    recs.foldl (fun d pr => dinsert d pr.1 pr.2) d) []

/-- Modelled from the spec: the receipt dictionary a voter accumulates
while casting (`sv_voter` is not in the source) — one entry per cast
vote, keyed by ballot id, with enough data to locate the vote on the
board.  The orchestrator treats the contents as opaque. -/
def voterReceipts (vv : VoterVotes) : List (String × Receipt) :=
  vv.votes.map (fun pr => (pr.2.ballot_id, [("race_id", pr.1), ("px", vv.px)]))

/-- Run one posting step of the election state machine: skip if an
earlier step already failed, otherwise post and carry the error if the
board refuses. -/
def pstep (st : SBB × Except SvError Unit) (label : String) (payload : Payload)
    (time_stamp : Bool) : SBB × Except SvError Unit :=
  match st with
  | (sbb, .error e) => (sbb, .error e)
  | (sbb, .ok ()) =>
    match sbb.post label payload time_stamp with
    | .error e => (sbb, .error e)
    | .ok sbb' => (sbb', .ok ())

/-- Modelled from the spec: the postings of `sv_server.mix` (not in
the source) — one structure record per pass `k` under a `mix:*` label.
The record contents are beyond every claim and are not modelled. -/
def mix_steps (k_list : List Char) (st : SBB × Except SvError Unit) :
    SBB × Except SvError Unit :=
  k_list.foldl (fun st k => pstep st ("mix:" ++ k.toString) .pnone true) st

/-- Modelled from the spec: `sv_tally.post_tally` (not in the source)
posts the tally under the `tally` label; `sv_tally.compute_tally` and
`print_tally` post nothing. -/
def tally_step (st : SBB × Except SvError Unit) : SBB × Except SvError Unit :=
  pstep st "tally" .pnone true

/-- Modelled from the spec: `sv_prover.make_proof` (not in the source)
posts the input-comparison and output-production halves of the
cut-and-choose proof under `proof:icl` and then `proof:opl`. -/
def proof_steps (st : SBB × Except SvError Unit) : SBB × Except SvError Unit :=
  pstep (pstep st "proof:icl" .pnone true) "proof:opl" .pnone true

/-- The final `self.sbb.close()` of `run_election` (line 173), reached
only when every earlier step succeeded. -/
def close_step (st : SBB × Except SvError Unit) : SBB × Except SvError Unit :=
  match st with
  | (sbb, .ok ()) => (sbb.close, .ok ())
  | (sbb, .error e) => (sbb, .error e)

/-- The posting sequence of `run_election` after the voting loop and
grid distribution (lines 153-172): cast-vote commitments, voter
receipts, the mix records, the tally, the two proof halves, and the
final `election:done.` entry. -/
def run_posts (e : Election) (votes : List VoterVotes)
    (st : SBB × Except SvError Unit) : SBB × Except SvError Unit :=
  pstep
    (proof_steps
      (tally_step
        (mix_steps e.k_list
          (pstep
            (pstep st "casting:votes"
              (.pcvcs (post_cast_vote_commitments_payload
                e.race_ids e.p_list e.row_list (cvFun votes)))
              false)
            "casting:receipts"
            (.preceipts (post_voter_receipts_payload (votes.map voterReceipts)))
            false))))
    "election:done." (.pdone e.election_id) true

/-- `Election.run_election` (lines 140-173): initialize the cast-vote
structure and run the voting loop, distribute the shares to column 0
of the server grid, make the postings of `run_posts`, and close the
board.  An error in any step stops the machine; the board is returned
as it stood. -/
def run_election (e : Election) (choiceOf : String → String → String)
    (rnd : String → String → VoterRand) (sbb : SBB) :
    SBB × Except SvError Unit :=
  match castAllVotes e choiceOf rnd with
  | .error err => (sbb, .error err)
  | .ok votes =>
    let _server := distribute_cast_votes e.race_ids e.p_list e.row_list
      (cvFun votes) (fun _ _ _ => emptyCell)
    close_step (run_posts e votes (sbb, .ok ()))

/-- A complete election: `Election(params)` followed by
`run_election()`, returning the final bulletin board and the outcome. -/
def runFull (p : ElectionParameters) (choiceOf : String → String → String)
    (rnd : String → String → VoterRand) : SBB × Except SvError Unit :=
  match election_init p with
  | (sbb, .error e) => (sbb, .error e)
  | (sbb, .ok elec) => run_election elec choiceOf rnd sbb

/-- The `setup:start` entry posted by `Election.__init__`
(lines 121-126). -/
def startEntry (p : ElectionParameters) : SbbEntry :=
  ⟨"setup:start", .pstart aboutText p.election_id legendText, true⟩

/-- The `setup:races` entry posted by `setup_races` (lines 201-203). -/
def racesEntry (p : ElectionParameters) : SbbEntry :=
  ⟨"setup:races", .praces (raceDictOf p.ballot_style), false⟩

/-- The `setup:voters` entry posted by `setup_voters` (lines 218-221). -/
def votersEntry (p : ElectionParameters) : SbbEntry :=
  ⟨"setup:voters", .pvoters (pyNatOf p.n_voters) (ballotIdLenOf p), false⟩

/-- The `setup:finished` entry posted by `Election.__init__`
(line 138). -/
def finishedEntry : SbbEntry :=
  ⟨"setup:finished", .pnone, true⟩

/-- The four entries a successful `Election.__init__` posts, in
order. -/
def initEntries (p : ElectionParameters) : List SbbEntry :=
  [startEntry p, racesEntry p, votersEntry p, finishedEntry]

/-- The bulletin board as it stands after a successful
`Election.__init__`. -/
def initSbb (p : ElectionParameters) : SBB :=
  ⟨p.election_id, initEntries p, false⟩

/-- The election state a successful `Election.__init__` builds from
valid parameters. -/
def mkElectionOf (p : ElectionParameters) : Election :=
  { election_id := p.election_id
    ballot_style := p.ballot_style
    n_voters := pyNatOf p.n_voters
    p_list := pList (pyNatOf p.n_voters)
    n_reps := pyNatOf p.n_reps
    k_list := kListStr (pyNatOf p.n_reps)
    n_fail := pyNatOf p.n_fail
    n_leak := pyNatOf p.n_leak
    ballot_id_len := ballotIdLenOf p
    race_ids := p.ballot_style.map Prod.fst
    races := p.ballot_style.map (fun pr => mkRace pr.1 pr.2)
    voters := (List.range (pyNatOf p.n_voters)).map (fun i =>
      VoterT.mk ("voter:" ++ toString i) ((pList (pyNatOf p.n_voters)).getD i ""))
    row_list := rowLabels (rowCount (pyNatOf p.n_fail) (pyNatOf p.n_leak)) }

/-- The entries `run_posts` appends on a successful run. -/
def tail_entries (e : Election) (votes : List VoterVotes) : List SbbEntry :=
  [⟨"casting:votes",
     .pcvcs (post_cast_vote_commitments_payload e.race_ids e.p_list e.row_list
       (cvFun votes)), false⟩,
   ⟨"casting:receipts",
     .preceipts (post_voter_receipts_payload (votes.map voterReceipts)), false⟩] ++
  e.k_list.map (fun k => ⟨"mix:" ++ k.toString, .pnone, true⟩) ++
  [⟨"tally", .pnone, true⟩, ⟨"proof:icl", .pnone, true⟩,
   ⟨"proof:opl", .pnone, true⟩, ⟨"election:done.", .pdone e.election_id, true⟩]

/-- The labels a complete run posts, in order (§6 of the
specification). -/
def expectedLabels (nReps : Nat) : List String :=
  ["setup:start", "setup:races", "setup:voters", "setup:finished",
   "casting:votes", "casting:receipts"] ++
  (kListStr nReps).map (fun k => "mix:" ++ k.toString) ++
  ["tally", "proof:icl", "proof:opl", "election:done."]

/-- The postings made by the `setup_keys` transition: none — its body
is `pass` (lines 246-251). -/
def setup_keys_posts : List SbbEntry := []

/-- The postings made by the voting loop (lines 146-148): none. -/
def cast_votes_posts : List SbbEntry := []

/-- The postings made by `distribute_cast_votes` (lines 253-271):
none. -/
def distribute_posts : List SbbEntry := []

/-- A small valid parameter set used to instantiate the theorems
below on concrete data. -/
def sampleParams : ElectionParameters :=
  { election_id := "E1"
    ballot_style := [("P", ["A", "B"])]
    n_voters := .pint 1
    n_reps := .pint 2
    n_fail := .pint 0
    n_leak := .pint 0
    ballot_id_len := none
    json_indent := none }

/-- Fixed per-(voter, race) randomness for the concrete runs. -/
def sampleRnd : String → String → VoterRand := fun _ _ => ⟨"B01", 1, 0, 0⟩

/-- Every voter selects the listed choice `A`. -/
def sampleChoice : String → String → String := fun _ _ => "A"

/-- Every voter selects `C`, which is not a listed choice of the
sample ballot style and has no write-in slot: it cannot be encoded. -/
def badChoice : String → String → String := fun _ _ => "C"

/-- `sampleParams` with a positive non-integer `ballot_id_len`. -/
def floatLenParams : ElectionParameters :=
  { sampleParams with ballot_id_len := some (.pfloat (mkRat 5 2)) }

/-- A concrete cast-vote table for the payload theorems. -/
def sampleCvs : String → String → String → CastVoteRecord :=
  fun r px i => ⟨r ++ px ++ i, 1, 2, 3, 4, 5, 6, 7⟩

/-- `sampleCvs` with all five secret fields changed and the three
public fields kept. -/
def sampleCvsHidden : String → String → String → CastVoteRecord :=
  fun r px i => ⟨r ++ px ++ i, 9, 8, 9, 8, 9, 6, 7⟩

/-- Lookup into the nested `casting:votes` dictionary:
race id, then position, then row. -/
def cvcsGet (d : CvcsDict) (r px i : String) : Option CastVoteCommitment :=
  (d.lookup r).bind fun dr => (dr.lookup px).bind fun dp => dp.lookup i

theorem checkParams_ok_iff (p : ElectionParameters) :
    checkParams p = .ok () ↔ validParams p := by
  constructor
  · intro h
    unfold checkParams at h
    split_ifs at h with h1 h2 h3 h4 h5 h6 h7
    all_goals try simp at h
    exact ⟨Nat.pos_of_ne_zero h1, Nat.pos_of_ne_zero h2,
      by simpa using h3, by simpa using h4, by simpa using h5,
      by simpa using h6, by simpa using h7⟩
  · intro hv
    obtain ⟨v1, v2, v3, v4, v5, v6, v7⟩ := hv
    have n1 : ¬ p.election_id.length = 0 := by omega
    have n2 : ¬ p.ballot_style.length = 0 := by omega
    simp [checkParams, n1, n2, v3, v4, v5, v6, v7]

theorem checkParams_error_shape (p : ElectionParameters) (e : SvError)
    (h : checkParams p = .error e) : ∃ r, r ≠ "" ∧ e = .ConfigInvalid r := by
  unfold checkParams at h
  split_ifs at h <;> cases h <;> exact ⟨_, by decide, rfl⟩

theorem checkParams_fail (p : ElectionParameters) (h : ¬ validParams p) :
    ∃ reason, reason ≠ "" ∧ checkParams p = .error (.ConfigInvalid reason) := by
  rcases hcp : checkParams p with e | u
  · obtain ⟨r, hr, he⟩ := checkParams_error_shape p e hcp
    exact ⟨r, hr, by rw [he]⟩
  · rw [show u = () from rfl, checkParams_ok_iff] at hcp
    exact absurd hcp h

theorem election_init_of_checkParams_error (p : ElectionParameters)
    (e : SvError) (h : checkParams p = .error e) :
    election_init p = (SBB.new p.election_id, .error e) := by
  unfold election_init
  rw [h]

/-- C2: a parameter dict violating one of the configuration
requirements — empty `election_id`, empty `ballot_style`, `n_voters`
not a positive int, `n_reps` not a positive even int at most 26,
`n_fail` or `n_leak` not a non-negative int, or `ballot_id_len` not
greater than 0 — makes `Election.__init__` fail fast with
`ConfigInvalid` and a non-empty reason, before anything is posted to
the bulletin board; parameters passing all the checks do not fail
them. -/
theorem c2_config_validation (p : ElectionParameters) :
    (checkParams p = .ok () ↔ validParams p) ∧
    (¬ validParams p →
      ∃ reason, reason ≠ "" ∧
        checkParams p = .error (.ConfigInvalid reason) ∧
        election_init p = (SBB.new p.election_id, .error (.ConfigInvalid reason)) ∧
        (SBB.new p.election_id).entries = []) := by
  refine ⟨checkParams_ok_iff p, fun h => ?_⟩
  obtain ⟨r, hr, hcp⟩ := checkParams_fail p h
  exact ⟨r, hr, hcp, election_init_of_checkParams_error p _ hcp, rfl⟩

theorem c2_config_validation_witness :
    checkParams sampleParams = .ok () ∧
    (∃ reason, reason ≠ "" ∧
      checkParams { sampleParams with n_reps := .pint 3 } =
        .error (.ConfigInvalid reason) ∧
      election_init { sampleParams with n_reps := .pint 3 } =
        (SBB.new "E1", .error (.ConfigInvalid reason)) ∧
      (SBB.new "E1").entries = []) :=
  ⟨(c2_config_validation sampleParams).1.mpr (by decide),
   (c2_config_validation { sampleParams with n_reps := .pint 3 }).2 (by decide)⟩

/-- C7: for every valid `n_reps` (positive, even, at most 26), the
pass-label list is exactly the first `n_reps` upper-case letters
`A, B, C, ...` in order, and has length `n_reps`. -/
theorem c7_pass_labels (n : Nat) (hpos : 0 < n) (hle : n ≤ 26)
    (heven : n % 2 = 0) :
    kListStr n = (List.range n).map (fun i => Char.ofNat (65 + i)) ∧
    (kListStr n).length = n := by
  have h : ∀ m : Nat, m < 27 →
      kListStr m = (List.range m).map (fun i => Char.ofNat (65 + i)) ∧
      (kListStr m).length = m := by decide
  exact h n (by omega)

theorem c7_pass_labels_witness :
    (0 < 4 ∧ 4 ≤ 26 ∧ 4 % 2 = 0) ∧
    (kListStr 4 = (List.range 4).map (fun i => Char.ofNat (65 + i)) ∧
     (kListStr 4).length = 4) :=
  ⟨by decide, c7_pass_labels 4 (by decide) (by decide) (by decide)⟩

/-- The first six configuration checks (everything except the
`ballot_id_len` check). -/
def validExceptLen (p : ElectionParameters) : Prop :=
  p.election_id.length > 0 ∧ p.ballot_style.length > 0 ∧
  isPosInt p.n_voters = true ∧ isValidReps p.n_reps = true ∧
  isNonnegInt p.n_fail = true ∧ isNonnegInt p.n_leak = true

instance (p : ElectionParameters) : Decidable (validExceptLen p) := by
  unfold validExceptLen; infer_instance

/-- C8 (amended): an omitted `ballot_id_len` defaults to 32, and — the
other parameters being valid — a supplied `ballot_id_len` passes the
checks of `Election.__init__` if and only if it compares greater than
0; the integer type is not checked, so a positive non-integer is also
accepted. -/
theorem c8_ballot_id_len (p : ElectionParameters) (hrest : validExceptLen p) :
    (p.ballot_id_len = none →
      ballotIdLenOf p = .pint 32 ∧ checkParams p = .ok ()) ∧
    (∀ v, p.ballot_id_len = some v →
      (checkParams p = .ok () ↔ pyPos v = true)) := by
  obtain ⟨v1, v2, v3, v4, v5, v6⟩ := hrest
  constructor
  · intro hnone
    have hlen : ballotIdLenOf p = .pint 32 := by
      unfold ballotIdLenOf; rw [hnone]; rfl
    refine ⟨hlen, (checkParams_ok_iff p).mpr ⟨v1, v2, v3, v4, v5, v6, ?_⟩⟩
    rw [hlen]; decide
  · intro v hv
    have hlen : ballotIdLenOf p = v := by
      unfold ballotIdLenOf; rw [hv]; rfl
    rw [checkParams_ok_iff]
    unfold validParams
    rw [hlen]
    constructor
    · intro hall; exact hall.2.2.2.2.2.2
    · intro hpos; exact ⟨v1, v2, v3, v4, v5, v6, hpos⟩

theorem c8_ballot_id_len_witness :
    ballotIdLenOf sampleParams = .pint 32 ∧ checkParams sampleParams = .ok () :=
  (c8_ballot_id_len sampleParams (by decide)).1 rfl

theorem c8_ballot_id_len_counterexample :
    checkParams floatLenParams = .ok () ∧
    isPosInt (ballotIdLenOf floatLenParams) = false ∧
    floatLenParams.ballot_id_len = some (.pfloat (mkRat 5 2)) := by
  decide

/-- C6: a ballot style with a duplicated race id makes `setup_races`
fail before any race is constructed or posted (the board is returned
untouched and no race list is produced); with pairwise-distinct race
ids the check passes, one race per pair is created in ballot-style
order, and the race dictionary is posted. -/
theorem c6_race_id_uniqueness (ballot_style : List (String × List String))
    (sbb : SBB) (hopen : sbb.closed = false) :
    (¬ (ballot_style.map Prod.fst).Nodup →
      setup_races ballot_style sbb =
        (sbb, .error (.ConfigInvalid "race ids are not distinct"))) ∧
    ((ballot_style.map Prod.fst).Nodup →
      setup_races ballot_style sbb =
        ({ sbb with entries := sbb.entries ++
            [⟨"setup:races", .praces (raceDictOf ballot_style), false⟩] },
         .ok (ballot_style.map (fun pr => mkRace pr.1 pr.2)))) := by
  constructor
  · intro hdup
    simp [setup_races, hdup]
  · intro hnd
    simp [setup_races, hnd, SBB.post, hopen]

theorem c6_race_id_uniqueness_witness :
    setup_races [("P", ["A"]), ("P", ["B"])] (SBB.new "E1") =
      (SBB.new "E1", .error (.ConfigInvalid "race ids are not distinct")) ∧
    setup_races [("P", ["A", "B"])] (SBB.new "E1") =
      ({ SBB.new "E1" with entries :=
          [⟨"setup:races", .praces (raceDictOf [("P", ["A", "B"])]), false⟩] },
       .ok [mkRace "P" ["A", "B"]]) :=
  ⟨(c6_race_id_uniqueness [("P", ["A"]), ("P", ["B"])] (SBB.new "E1") rfl).1
      (by decide),
   (c6_race_id_uniqueness [("P", ["A", "B"])] (SBB.new "E1") rfl).2 (by decide)⟩

theorem lookup_none_of_not_mem_keys {α : Type} (l : List (String × α))
    (k : String) (h : k ∉ l.map Prod.fst) : l.lookup k = none := by
  induction l with
  | nil => rfl
  | cons pr prs ih =>
    obtain ⟨a, b⟩ := pr
    have hka : ¬ k = a := fun he => h (by simp [he])
    have hb : (k == a) = false := by simp [hka]
    rw [List.lookup_cons, hb]
    exact ih (fun hm => h (List.mem_cons_of_mem _ hm))

theorem lookup_of_mem_keys_nodup {α : Type} (l : List (String × α))
    (k : String) (v : α) (hmem : (k, v) ∈ l)
    (hnd : (l.map Prod.fst).Nodup) : l.lookup k = some v := by
  induction l with
  | nil => cases hmem
  | cons pr prs ih =>
    obtain ⟨a, b⟩ := pr
    rw [List.map_cons] at hnd
    obtain ⟨ha, hnd'⟩ := List.nodup_cons.mp hnd
    rcases List.mem_cons.mp hmem with he | hm
    · obtain ⟨hk, hv⟩ := Prod.mk.injEq .. ▸ he
      subst hk; subst hv
      rw [List.lookup_cons]
      simp
    · have hka : ¬ k = a := by
        intro he; subst he
        exact ha (List.mem_map.mpr ⟨(k, v), hm, rfl⟩)
      have hb : (k == a) = false := by simp [hka]
      rw [List.lookup_cons, hb]
      exact ih hm hnd'

theorem dinsert_fresh {α : Type} (d : List (String × α)) (k : String) (v : α)
    (h : k ∉ d.map Prod.fst) : dinsert d k v = d ++ [(k, v)] := by
  unfold dinsert
  rw [lookup_none_of_not_mem_keys d k h]
  simp

theorem foldl_dinsert_fresh {α : Type} (recs : List (String × α))
    (d : List (String × α))
    (hnd : (d.map Prod.fst ++ recs.map Prod.fst).Nodup) :
    recs.foldl (fun d pr => dinsert d pr.1 pr.2) d = d ++ recs := by
  induction recs generalizing d with
  | nil => simp
  | cons pr prs ih =>
    rw [List.foldl_cons]
    have hk : pr.1 ∉ d.map Prod.fst := by
      intro hm
      obtain ⟨-, -, hdisj⟩ := List.nodup_append.mp hnd
      exact hdisj hm (by simp)
    rw [dinsert_fresh d pr.1 pr.2 hk]
    have hnd' : ((d ++ [pr]).map Prod.fst ++ prs.map Prod.fst).Nodup := by
      simpa [List.append_assoc] using hnd
    rw [ih (d ++ [pr]) hnd']
    simp

theorem foldl_dinsert_voters {α : Type} (vrds : List (List (String × α)))
    (d : List (String × α))
    (hnd : (d.map Prod.fst ++ vrds.flatten.map Prod.fst).Nodup) :
    vrds.foldl (fun d recs =>
      recs.foldl (fun d pr => dinsert d pr.1 pr.2) d) d = d ++ vrds.flatten := by
  induction vrds generalizing d with
  | nil => simp
  | cons recs vs ih =>
    rw [List.foldl_cons]
    have hnd1 : (d.map Prod.fst ++ recs.map Prod.fst).Nodup := by
      have h2 := hnd
      simp only [List.flatten_cons, List.map_append, ← List.append_assoc] at h2
      exact h2.of_append_left
    rw [foldl_dinsert_fresh recs d hnd1]
    have hnd2 : ((d ++ recs).map Prod.fst ++ vs.flatten.map Prod.fst).Nodup := by
      simpa [List.flatten_cons, List.append_assoc] using hnd
    rw [ih (d ++ recs) hnd2]
    simp

theorem post_voter_receipts_flatten (vrds : List (List (String × Receipt)))
    (h : (vrds.flatten.map Prod.fst).Nodup) :
    post_voter_receipts_payload vrds = vrds.flatten := by
  simpa [post_voter_receipts_payload] using
    foldl_dinsert_voters vrds [] (by simpa using h)

/-- C10: assuming the ballot ids across all voters are distinct, the
dictionary built by `post_voter_receipts` (and posted under
`casting:receipts`) is exactly the concatenation of the voters'
receipt dictionaries: it maps every ballot id to the owning voter's
receipt and has exactly one entry per (voter, ballot id) pair. -/
theorem c10_receipt_dict (vrds : List (List (String × Receipt)))
    (h : (vrds.flatten.map Prod.fst).Nodup) :
    post_voter_receipts_payload vrds = vrds.flatten ∧
    (∀ recs ∈ vrds, ∀ pr ∈ recs,
      (post_voter_receipts_payload vrds).lookup pr.1 = some pr.2) ∧
    (post_voter_receipts_payload vrds).length =
      (vrds.map List.length).sum := by
  have hflat := post_voter_receipts_flatten vrds h
  refine ⟨hflat, ?_, ?_⟩
  · intro recs hrecs pr hpr
    rw [hflat]
    exact lookup_of_mem_keys_nodup _ _ _
      (List.mem_flatten.mpr ⟨recs, hrecs, by simpa using hpr⟩) h
  · rw [hflat, List.length_flatten]

theorem c10_receipt_dict_witness :
    post_voter_receipts_payload
        [[("B1", [("race_id", "P"), ("px", "p0")])],
         [("B2", [("race_id", "P"), ("px", "p1")])]] =
      [("B1", [("race_id", "P"), ("px", "p0")]),
       ("B2", [("race_id", "P"), ("px", "p1")])] ∧
    (post_voter_receipts_payload
        [[("B1", [("race_id", "P"), ("px", "p0")])],
         [("B2", [("race_id", "P"), ("px", "p1")])]]).lookup "B2" =
      some [("race_id", "P"), ("px", "p1")] ∧
    (post_voter_receipts_payload
        [[("B1", [("race_id", "P"), ("px", "p0")])],
         [("B2", [("race_id", "P"), ("px", "p1")])]]).length = 2 := by
  have h := c10_receipt_dict
    [[("B1", [("race_id", "P"), ("px", "p0")])],
     [("B2", [("race_id", "P"), ("px", "p1")])]] (by decide)
  refine ⟨by simpa using h.1, ?_, by simpa using h.2.2⟩
  exact h.2.1 [("B2", [("race_id", "P"), ("px", "p1")])] (by decide)
    ("B2", [("race_id", "P"), ("px", "p1")]) (by decide)

theorem foldl_append_aux {α β : Type} (l : List α) (f : α → β) (acc : List β) :
    l.foldl (fun acc x => acc ++ [f x]) acc = acc ++ l.map f := by
  induction l generalizing acc with
  | nil => simp
  | cons a as ih => simp [List.foldl_cons, ih]

theorem cvcs_payload_eq_map (race_ids p_list row_list : List String)
    (cvs : String → String → String → CastVoteRecord) :
    post_cast_vote_commitments_payload race_ids p_list row_list cvs =
      race_ids.map (fun r => (r, p_list.map (fun px => (px, row_list.map (fun i =>
        (i, CastVoteCommitment.mk (cvs r px i).ballot_id
              (cvs r px i).cu (cvs r px i).cv)))))) := by
  unfold post_cast_vote_commitments_payload
  rw [foldl_append_aux]
  simp only [List.nil_append]
  refine List.map_congr_left (fun r _ => ?_)
  rw [foldl_append_aux]
  simp only [List.nil_append]
  refine congrArg (Prod.mk r) (List.map_congr_left (fun px _ => ?_))
  rw [foldl_append_aux]
  simp

theorem lookup_map_key {β : Type} (l : List String) (f : String → β)
    (k : String) (hk : k ∈ l) (hnd : l.Nodup) :
    (l.map (fun x => (x, f x))).lookup k = some (f k) := by
  apply lookup_of_mem_keys_nodup
  · exact List.mem_map.mpr ⟨k, hk, rfl⟩
  · rw [List.map_map]
    simp only [Function.comp_def]
    simpa using hnd

/-- C4: the dictionary posted under `casting:votes` holds, for every
race id, position, and server row, exactly the `ballot_id`, `cu` and
`cv` fields of the corresponding cast-vote record (the entry type has
no other field), and it does not depend on the secret fields: two
cast-vote tables agreeing on those three fields yield identical
payloads. -/
theorem c4_commitments_payload (race_ids p_list row_list : List String)
    (cvs cvs' : String → String → String → CastVoteRecord)
    (h1 : race_ids.Nodup) (h2 : p_list.Nodup) (h3 : row_list.Nodup)
    (hagree : ∀ r px i,
      (cvs r px i).ballot_id = (cvs' r px i).ballot_id ∧
      (cvs r px i).cu = (cvs' r px i).cu ∧
      (cvs r px i).cv = (cvs' r px i).cv) :
    (∀ r ∈ race_ids, ∀ px ∈ p_list, ∀ i ∈ row_list,
      cvcsGet (post_cast_vote_commitments_payload race_ids p_list row_list cvs)
          r px i =
        some (CastVoteCommitment.mk (cvs r px i).ballot_id
          (cvs r px i).cu (cvs r px i).cv)) ∧
    post_cast_vote_commitments_payload race_ids p_list row_list cvs =
      post_cast_vote_commitments_payload race_ids p_list row_list cvs' := by
  constructor
  · intro r hr px hpx i hi
    rw [cvcs_payload_eq_map]
    unfold cvcsGet
    rw [lookup_map_key race_ids _ r hr h1, Option.some_bind,
        lookup_map_key p_list _ px hpx h2, Option.some_bind,
        lookup_map_key row_list _ i hi h3]
  · rw [cvcs_payload_eq_map, cvcs_payload_eq_map]
    refine List.map_congr_left (fun r _ => ?_)
    refine congrArg (Prod.mk r) (List.map_congr_left (fun px _ => ?_))
    refine congrArg (Prod.mk px) (List.map_congr_left (fun i _ => ?_))
    obtain ⟨e1, e2, e3⟩ := hagree r px i
    rw [e1, e2, e3]

theorem c4_commitments_payload_witness :
    cvcsGet (post_cast_vote_commitments_payload ["P"] ["p0"] ["a"] sampleCvs)
        "P" "p0" "a" =
      some (CastVoteCommitment.mk "Pp0a" 6 7) ∧
    post_cast_vote_commitments_payload ["P"] ["p0"] ["a"] sampleCvs =
      post_cast_vote_commitments_payload ["P"] ["p0"] ["a"] sampleCvsHidden := by
  have h := c4_commitments_payload ["P"] ["p0"] ["a"] sampleCvs sampleCvsHidden
    (by decide) (by decide) (by decide) (fun r px i => ⟨rfl, rfl, rfl⟩)
  exact ⟨h.1 "P" (by decide) "p0" (by decide) "a" (by decide), h.2⟩

theorem writeShare_other (s : Sdb) (r px i : String) (vote : CastVoteRecord)
    (r' i' : String) (c : Nat) (h : ¬(r' = r ∧ i' = i ∧ c = 0)) :
    writeShare s r px i vote r' i' c = s r' i' c := by
  simp [writeShare, h]

theorem writeShare_same (s : Sdb) (r px i : String) (vote : CastVoteRecord) :
    writeShare s r px i vote r i 0 = updCell (s r i 0) px vote := by
  simp [writeShare]

theorem rowFold_ne (cast_votes : String → String → String → CastVoteRecord)
    (r px : String) :
    ∀ (rows : List String) (s : Sdb) (r' i' : String) (c : Nat),
      ¬(r' = r ∧ i' ∈ rows ∧ c = 0) →
      (rows.foldl (fun s i => writeShare s r px i (cast_votes r px i)) s)
          r' i' c = s r' i' c := by
  intro rows
  induction rows with
  | nil => intro s r' i' c _; rfl
  | cons j js ih =>
    intro s r' i' c h
    rw [List.foldl_cons,
      ih _ r' i' c (fun hx => h ⟨hx.1, List.mem_cons_of_mem _ hx.2.1, hx.2.2⟩)]
    exact writeShare_other s r px j _ r' i' c
      (fun hx => h ⟨hx.1, hx.2.1 ▸ List.mem_cons_self j js, hx.2.2⟩)

theorem rowFold_mem (cast_votes : String → String → String → CastVoteRecord)
    (r px : String) :
    ∀ (rows : List String) (s : Sdb) (i : String), i ∈ rows → rows.Nodup →
      (rows.foldl (fun s i => writeShare s r px i (cast_votes r px i)) s)
          r i 0 = updCell (s r i 0) px (cast_votes r px i) := by
  intro rows
  induction rows with
  | nil => intro s i hi _; cases hi
  | cons j js ih =>
    intro s i hi hnd
    obtain ⟨hj, hnd'⟩ := List.nodup_cons.mp hnd
    rw [List.foldl_cons]
    rcases List.mem_cons.mp hi with he | hm
    · subst he
      rw [rowFold_ne cast_votes r px js _ r i 0 (fun hx => hj hx.2.1)]
      exact writeShare_same s r px i _
    · rw [ih _ i hm hnd']
      have hij : ¬ i = j := fun he => hj (he ▸ hm)
      rw [writeShare_other s r px j _ r i 0 (fun hx => hij hx.2.1)]

theorem rowFold_field_other
    (cast_votes : String → String → String → CastVoteRecord)
    (r px' : String) :
    ∀ (rows : List String) (s : Sdb) (i : String) (f : FieldName) (q : String),
      q ≠ px' →
      (rows.foldl (fun s i => writeShare s r px' i (cast_votes r px' i)) s)
          r i 0 f q = s r i 0 f q := by
  intro rows
  induction rows with
  | nil => intro s i f q _; rfl
  | cons j js ih =>
    intro s i f q hq
    rw [List.foldl_cons, ih _ i f q hq]
    by_cases hij : i = j
    · subst hij
      rw [writeShare_same s r px' i _]
      simp [updCell, hq]
    · rw [writeShare_other s r px' j _ r i 0 (fun hx => hij hx.2.1)]

theorem pFold_ne (cast_votes : String → String → String → CastVoteRecord)
    (r : String) (row_list : List String) :
    ∀ (ps : List String) (s : Sdb) (r' i' : String) (c : Nat),
      ¬(r' = r ∧ c = 0) →
      (ps.foldl (fun s px =>
        row_list.foldl (fun s i => writeShare s r px i (cast_votes r px i)) s) s)
          r' i' c = s r' i' c := by
  intro ps
  induction ps with
  | nil => intro s r' i' c _; rfl
  | cons q qs ih =>
    intro s r' i' c h
    rw [List.foldl_cons, ih _ r' i' c h]
    exact rowFold_ne cast_votes r q row_list s r' i' c
      (fun hx => h ⟨hx.1, hx.2.2⟩)

theorem pFold_field_notmem
    (cast_votes : String → String → String → CastVoteRecord)
    (r : String) (row_list : List String) :
    ∀ (ps : List String) (s : Sdb) (i : String) (f : FieldName) (q : String),
      q ∉ ps →
      (ps.foldl (fun s px =>
        row_list.foldl (fun s i => writeShare s r px i (cast_votes r px i)) s) s)
          r i 0 f q = s r i 0 f q := by
  intro ps
  induction ps with
  | nil => intro s i f q _; rfl
  | cons px' qs ih =>
    intro s i f q hq
    rw [List.foldl_cons, ih _ i f q (fun hm => hq (List.mem_cons_of_mem _ hm))]
    exact rowFold_field_other cast_votes r px' row_list s i f q
      (fun he => hq (he ▸ List.mem_cons_self px' qs))

theorem pFold_field_mem
    (cast_votes : String → String → String → CastVoteRecord)
    (r : String) (row_list : List String) (hndr : row_list.Nodup) :
    ∀ (ps : List String) (s : Sdb) (i px : String) (f : FieldName),
      px ∈ ps → ps.Nodup → i ∈ row_list →
      (ps.foldl (fun s px =>
        row_list.foldl (fun s i => writeShare s r px i (cast_votes r px i)) s) s)
          r i 0 f px = voteVal (cast_votes r px i) f := by
  intro ps
  induction ps with
  | nil => intro s i px f hpx _ _; cases hpx
  | cons q qs ih =>
    intro s i px f hpx hnd hi
    obtain ⟨hq, hnd'⟩ := List.nodup_cons.mp hnd
    rw [List.foldl_cons]
    rcases List.mem_cons.mp hpx with he | hm
    · subst he
      rw [pFold_field_notmem cast_votes r row_list qs _ i f px hq,
        rowFold_mem cast_votes r px row_list s i hi hndr]
      simp [updCell]
    · exact ih _ i px f hm hnd' hi

theorem raceFold_notmem
    (cast_votes : String → String → String → CastVoteRecord)
    (p_list row_list : List String) :
    ∀ (races : List String) (s : Sdb) (r i' : String) (c : Nat), r ∉ races →
      (races.foldl (fun s r =>
        p_list.foldl (fun s px =>
          row_list.foldl (fun s i => writeShare s r px i (cast_votes r px i)) s)
          s) s) r i' c = s r i' c := by
  intro races
  induction races with
  | nil => intro s r i' c _; rfl
  | cons r'' rs ih =>
    intro s r i' c hr
    rw [List.foldl_cons, ih _ r i' c (fun hm => hr (List.mem_cons_of_mem _ hm))]
    exact pFold_ne cast_votes r'' row_list p_list s r i' c
      (fun hx => hr (hx.1 ▸ List.mem_cons_self r'' rs))

theorem raceFold_col (cast_votes : String → String → String → CastVoteRecord)
    (p_list row_list : List String) :
    ∀ (races : List String) (s : Sdb) (r' i' : String) (c : Nat), c ≠ 0 →
      (races.foldl (fun s r =>
        p_list.foldl (fun s px =>
          row_list.foldl (fun s i => writeShare s r px i (cast_votes r px i)) s)
          s) s) r' i' c = s r' i' c := by
  intro races
  induction races with
  | nil => intro s r' i' c _; rfl
  | cons r'' rs ih =>
    intro s r' i' c hc
    rw [List.foldl_cons, ih _ r' i' c hc]
    exact pFold_ne cast_votes r'' row_list p_list s r' i' c
      (fun hx => hc hx.2)

theorem raceFold_value (cast_votes : String → String → String → CastVoteRecord)
    (p_list row_list : List String)
    (h2 : p_list.Nodup) (h3 : row_list.Nodup) :
    ∀ (races : List String) (s : Sdb) (r px i : String) (f : FieldName),
      r ∈ races → races.Nodup → px ∈ p_list → i ∈ row_list →
      (races.foldl (fun s r =>
        p_list.foldl (fun s px =>
          row_list.foldl (fun s i => writeShare s r px i (cast_votes r px i)) s)
          s) s) r i 0 f px = voteVal (cast_votes r px i) f := by
  intro races
  induction races with
  | nil => intro s r px i f hr _ _ _; cases hr
  | cons r'' rs ih =>
    intro s r px i f hr hnd hpx hi
    obtain ⟨hq, hnd'⟩ := List.nodup_cons.mp hnd
    rw [List.foldl_cons]
    rcases List.mem_cons.mp hr with he | hm
    · subst he
      rw [raceFold_notmem cast_votes p_list row_list rs _ r i 0 hq]
      exact pFold_field_mem cast_votes r row_list h3 p_list s i px f hpx h2 hi
    · exact ih _ r px i f hm hnd' hpx hi

/-- C5: after `distribute_cast_votes`, the column-0 server cell of
every (race, row) pair holds, at every position of the position list,
exactly the eight values `ballot_id, x, u, v, ru, rv, cu, cv` of the
corresponding cast-vote record, and no cell of any other column is
written. -/
theorem c5_distribute (race_ids p_list row_list : List String)
    (cast_votes : String → String → String → CastVoteRecord) (sdb : Sdb)
    (h1 : race_ids.Nodup) (h2 : p_list.Nodup) (h3 : row_list.Nodup)
    (r px i : String) (hr : r ∈ race_ids) (hpx : px ∈ p_list)
    (hi : i ∈ row_list) :
    (∀ f, distribute_cast_votes race_ids p_list row_list cast_votes sdb
        r i 0 f px = voteVal (cast_votes r px i) f) ∧
    (∀ r' i' c, c ≠ 0 →
      distribute_cast_votes race_ids p_list row_list cast_votes sdb r' i' c =
        sdb r' i' c) := by
  constructor
  · intro f
    exact raceFold_value cast_votes p_list row_list h2 h3 race_ids sdb
      r px i f hr h1 hpx hi
  · intro r' i' c hc
    exact raceFold_col cast_votes p_list row_list race_ids sdb r' i' c hc

theorem c5_distribute_witness :
    distribute_cast_votes ["P"] ["p0"] ["a"] sampleCvs
        (fun _ _ _ => emptyCell) "P" "a" 0 .u "p0" =
      voteVal (sampleCvs "P" "p0" "a") .u ∧
    distribute_cast_votes ["P"] ["p0"] ["a"] sampleCvs
        (fun _ _ _ => emptyCell) "P" "a" 1 =
      emptyCell := by
  have h := c5_distribute ["P"] ["p0"] ["a"] sampleCvs (fun _ _ _ => emptyCell)
    (by decide) (by decide) (by decide) "P" "p0" "a"
    (by decide) (by decide) (by decide)
  exact ⟨h.1 .u, h.2 "P" "a" 1 (by decide)⟩

theorem pstep_err (sbb : SBB) (e : SvError) (l : String) (p : Payload)
    (t : Bool) : pstep (sbb, .error e) l p t = (sbb, .error e) := rfl

theorem pstep_ok (sbb : SBB) (l : String) (p : Payload) (t : Bool)
    (h : sbb.closed = false) :
    pstep (sbb, .ok ()) l p t =
      ({ sbb with entries := sbb.entries ++ [⟨l, p, t⟩] }, .ok ()) := by
  simp [pstep, SBB.post, h]

theorem mix_steps_ok (ks : List Char) :
    ∀ (sbb : SBB), sbb.closed = false →
      mix_steps ks (sbb, .ok ()) =
        ({ sbb with
            entries := sbb.entries ++
              ks.map (fun k => ⟨"mix:" ++ k.toString, .pnone, true⟩) },
         .ok ()) := by
  induction ks with
  | nil => intro sbb h; simp [mix_steps]
  | cons k kt ih =>
    intro sbb h
    unfold mix_steps
    rw [List.foldl_cons, pstep_ok sbb _ _ _ h]
    have h2 := ih
      ({ sbb with entries := sbb.entries ++ [⟨"mix:" ++ k.toString, .pnone, true⟩] }) h
    unfold mix_steps at h2
    rw [h2]
    simp

theorem run_posts_ok (e : Election) (votes : List VoterVotes) (sbb : SBB)
    (h : sbb.closed = false) :
    run_posts e votes (sbb, .ok ()) =
      ({ sbb with entries := sbb.entries ++ tail_entries e votes }, .ok ()) := by
  unfold run_posts tally_step proof_steps
  simp only [pstep_ok, mix_steps_ok, h]
  simp [tail_entries]

theorem run_election_ok (e : Election) (choiceOf : String → String → String)
    (rnd : String → String → VoterRand) (sbb : SBB) (votes : List VoterVotes)
    (h : sbb.closed = false) (hv : castAllVotes e choiceOf rnd = .ok votes) :
    run_election e choiceOf rnd sbb =
      ({ sbb with entries := sbb.entries ++ tail_entries e votes,
                  closed := true }, .ok ()) := by
  unfold run_election
  rw [hv]
  show close_step (run_posts e votes (sbb, .ok ())) = _
  rw [run_posts_ok e votes sbb h]
  simp [close_step, SBB.close]

theorem run_election_err_cast (e : Election)
    (choiceOf : String → String → String) (rnd : String → String → VoterRand)
    (sbb : SBB) (err : SvError)
    (hv : castAllVotes e choiceOf rnd = .error err) :
    run_election e choiceOf rnd sbb = (sbb, .error err) := by
  unfold run_election
  rw [hv]

theorem election_init_ok (p : ElectionParameters)
    (h1 : checkParams p = .ok ())
    (h2 : (p.ballot_style.map Prod.fst).Nodup) :
    election_init p = (initSbb p, .ok (mkElectionOf p)) := by
  have h3 : isPosInt p.n_voters = true := ((checkParams_ok_iff p).mp h1).2.2.1
  unfold election_init
  rw [h1]
  simp [SBB.new, SBB.post, setup_races, h2, setup_voters, h3, setup_keys,
    initSbb, initEntries, startEntry, racesEntry, votersEntry, finishedEntry,
    mkElectionOf]

theorem election_init_dup (p : ElectionParameters)
    (h1 : checkParams p = .ok ())
    (h2 : ¬ (p.ballot_style.map Prod.fst).Nodup) :
    election_init p =
      ({ SBB.new p.election_id with entries := [startEntry p] },
       .error (.ConfigInvalid "race ids are not distinct")) := by
  unfold election_init
  rw [h1]
  simp [SBB.new, SBB.post, setup_races, h2, startEntry]

theorem runFull_ok_labels (p : ElectionParameters)
    (choiceOf : String → String → String) (rnd : String → String → VoterRand)
    (h : (runFull p choiceOf rnd).2 = .ok ()) :
    (runFull p choiceOf rnd).1.entries.map SbbEntry.label =
      expectedLabels (pyNatOf p.n_reps) ∧
    (runFull p choiceOf rnd).1.closed = true := by
  by_cases h1 : checkParams p = .ok ()
  · by_cases h2 : (p.ballot_style.map Prod.fst).Nodup
    · have hinit := election_init_ok p h1 h2
      unfold runFull at h ⊢
      simp only [hinit] at h ⊢
      rcases hv : castAllVotes (mkElectionOf p) choiceOf rnd with err | votes
      · rw [run_election_err_cast _ _ _ _ _ hv] at h
        simp at h
      · rw [run_election_ok _ _ _ _ _ rfl hv]
        refine ⟨?_, rfl⟩
        simp [initSbb, initEntries, tail_entries, expectedLabels, startEntry,
          racesEntry, votersEntry, finishedEntry, mkElectionOf, List.map_map]
    · have hinit := election_init_dup p h1 h2
      unfold runFull at h
      simp only [hinit] at h
      simp at h
  · rcases hcp : checkParams p with e | u
    · have hinit := election_init_of_checkParams_error p e hcp
      unfold runFull at h
      simp only [hinit] at h
      simp at h
    · cases u
      exact absurd hcp h1

/-- C1: a complete election run that terminates normally posts labels
in exactly the order `setup:start`, `setup:races`, `setup:voters`,
`setup:finished`, `casting:votes`, `casting:receipts`, the mix
records, `tally`, `proof:icl`, `proof:opl`, and a final
`election:done.`, after which the bulletin board is closed. -/
theorem c1_label_order (p : ElectionParameters)
    (choiceOf : String → String → String) (rnd : String → String → VoterRand)
    (h : (runFull p choiceOf rnd).2 = .ok ()) :
    (runFull p choiceOf rnd).1.entries.map SbbEntry.label =
      expectedLabels (pyNatOf p.n_reps) ∧
    (runFull p choiceOf rnd).1.closed = true :=
  runFull_ok_labels p choiceOf rnd h

theorem c1_label_order_witness :
    (runFull sampleParams sampleChoice sampleRnd).1.entries.map SbbEntry.label =
      expectedLabels 2 ∧
    (runFull sampleParams sampleChoice sampleRnd).1.closed = true :=
  c1_label_order sampleParams sampleChoice sampleRnd (by decide)

/-- C3 (amended): an error raised during an election run aborts the
state machine — the board is never closed and the error is surfaced to
the caller — but no `election:aborted` entry is written: the board
keeps exactly the entries posted before the error. -/
theorem c3_abort_behavior (p : ElectionParameters)
    (choiceOf : String → String → String) (rnd : String → String → VoterRand)
    (err : SvError) (h : (runFull p choiceOf rnd).2 = .error err) :
    (runFull p choiceOf rnd).1.closed = false ∧
    "election:aborted" ∉ (runFull p choiceOf rnd).1.entries.map SbbEntry.label := by
  by_cases h1 : checkParams p = .ok ()
  · by_cases h2 : (p.ballot_style.map Prod.fst).Nodup
    · have hinit := election_init_ok p h1 h2
      unfold runFull at h ⊢
      simp only [hinit] at h ⊢
      rcases hv : castAllVotes (mkElectionOf p) choiceOf rnd with cerr | votes
      · rw [run_election_err_cast _ _ _ _ _ hv]
        refine ⟨rfl, ?_⟩
        simp [initSbb, initEntries, startEntry, racesEntry, votersEntry,
          finishedEntry]
      · rw [run_election_ok _ _ _ _ _ rfl hv] at h
        simp at h
    · have hinit := election_init_dup p h1 h2
      unfold runFull at h ⊢
      simp only [hinit] at h ⊢
      refine ⟨rfl, ?_⟩
      simp [SBB.new, startEntry]
  · rcases hcp : checkParams p with e | u
    · have hinit := election_init_of_checkParams_error p e hcp
      unfold runFull at h ⊢
      simp only [hinit] at h ⊢
      exact ⟨rfl, by simp [SBB.new]⟩
    · cases u
      exact absurd hcp h1

theorem c3_abort_behavior_counterexample :
    (runFull sampleParams badChoice sampleRnd).2 = .error .EncodingTooLarge ∧
    (runFull sampleParams badChoice sampleRnd).1.closed = false ∧
    "election:aborted" ∉
      (runFull sampleParams badChoice sampleRnd).1.entries.map SbbEntry.label := by
  decide

theorem c3_abort_behavior_witness :
    (runFull sampleParams badChoice sampleRnd).1.closed = false ∧
    "election:aborted" ∉
      (runFull sampleParams badChoice sampleRnd).1.entries.map SbbEntry.label :=
  c3_abort_behavior sampleParams badChoice sampleRnd .EncodingTooLarge (by decide)

/-- C9 (amended): on a normally terminating run the SBB trace splits
into per-transition segments in the state-machine order, and each of
the Init, SetupRaces, SetupVoters, setup-finish, PostCommitments,
PostReceipts, Mix, PostTally, Proof and Close transitions records at
least one posting, but the SetupKeys, CastVotes and DistributeToGrid
transitions post nothing (`setup_keys` is `pass`, and neither the
voting loop nor `distribute_cast_votes` touches the board). -/
theorem c9_transition_posts (p : ElectionParameters)
    (choiceOf : String → String → String) (rnd : String → String → VoterRand)
    (h : (runFull p choiceOf rnd).2 = .ok ()) :
    (runFull p choiceOf rnd).1.entries.map SbbEntry.label =
      ["setup:start"] ++ ["setup:races"] ++ ["setup:voters"] ++
      setup_keys_posts.map SbbEntry.label ++ ["setup:finished"] ++
      cast_votes_posts.map SbbEntry.label ++
      distribute_posts.map SbbEntry.label ++
      ["casting:votes"] ++ ["casting:receipts"] ++
      (kListStr (pyNatOf p.n_reps)).map (fun k => "mix:" ++ k.toString) ++
      ["tally"] ++ ["proof:icl", "proof:opl"] ++ ["election:done."] ∧
    setup_keys_posts = [] ∧ cast_votes_posts = [] ∧ distribute_posts = [] := by
  refine ⟨?_, rfl, rfl, rfl⟩
  rw [(runFull_ok_labels p choiceOf rnd h).1]
  simp [expectedLabels, setup_keys_posts, cast_votes_posts, distribute_posts]

theorem c9_transition_posts_counterexample :
    setup_keys (SBB.new "E1") = SBB.new "E1" ∧ setup_keys_posts = [] :=
  ⟨rfl, rfl⟩

theorem c9_transition_posts_witness :
    (runFull sampleParams sampleChoice sampleRnd).1.entries.map SbbEntry.label =
      ["setup:start"] ++ ["setup:races"] ++ ["setup:voters"] ++
      setup_keys_posts.map SbbEntry.label ++ ["setup:finished"] ++
      cast_votes_posts.map SbbEntry.label ++
      distribute_posts.map SbbEntry.label ++
      ["casting:votes"] ++ ["casting:receipts"] ++
      (kListStr 2).map (fun k => "mix:" ++ k.toString) ++
      ["tally"] ++ ["proof:icl", "proof:opl"] ++ ["election:done."] ∧
    setup_keys_posts = [] ∧ cast_votes_posts = [] ∧ distribute_posts = [] :=
  c9_transition_posts sampleParams sampleChoice sampleRnd (by decide)

end SV
